import Mathlib

/-!
Verification of the schema-profiling pipeline in `sqlserver_mapping.py` and the
directory walker in `file_paths.py`, as a shallow embedding in Lean.

Conventions of the embedding:
* Python `Optional[int]` catalog fields become `Option Int`; Python truthiness
  on such a field (`if column_info[...]`) is `pyTruthy` below (`None` and `0`
  are falsy).
* Python strings are Lean `String`; `str.join` is `String.intercalate`.
* SQL queries issued by the script are modelled by executable functions over
  an explicit catalog value (`SchemaTable`, `DbCat`), following the text of
  each query: filtering rows, sorting by the `ORDER BY` key, `DISTINCT`,
  `TOP n`.  Sorting uses `List.insertionSort`, with a decidable
  character-wise lexicographic order `strLe` on strings.
* A caught exception (`except ... return []` in the source) is modelled by a
  failure flag in the environment; the handler result (`[]`) is returned when
  the flag is set.
* `pandas.DataFrame(list_of_dicts)` and `DataFrame.to_csv` are modelled by
  `pdDataFrame` and `toCsvLines`: the frame built from an empty list has no
  columns, and the one built from report dictionaries has the six keys of the
  dictionaries as columns, in insertion order.
-/

/-- Character-wise lexicographic comparison of strings, the ordering used to
model Python `sorted` and SQL `ORDER BY` on names.  (The builtin `String.le`
is defined by well-founded recursion and does not reduce in the kernel.) -/
def lexLeb : List Char → List Char → Bool
  | [], _ => true
  | _ :: _, [] => false
  | a :: as, b :: bs => if a < b then true else if b < a then false else lexLeb as bs

def strLe (a b : String) : Prop := lexLeb a.data b.data = true

instance : DecidableRel strLe := fun a b =>
  inferInstanceAs (Decidable (lexLeb a.data b.data = true))

theorem lexLeb_total (a b : List Char) : lexLeb a b = true ∨ lexLeb b a = true := by
  induction a generalizing b with
  | nil => left; rfl
  | cons x xs ih =>
    cases b with
    | nil => right; rfl
    | cons y ys =>
      by_cases hxy : x < y
      · left; simp [lexLeb, hxy]
      · by_cases hyx : y < x
        · right; simp [lexLeb, hyx, asymm hyx]
        · have h1 : ¬ x < y := hxy
          rcases ih ys with h | h
          · left; simp [lexLeb, hxy, hyx, h]
          · right; simp [lexLeb, hxy, hyx, h]

theorem lexLeb_trans {a b c : List Char} (hab : lexLeb a b = true)
    (hbc : lexLeb b c = true) : lexLeb a c = true := by
  induction a generalizing b c with
  | nil => rfl
  | cons x xs ih =>
    cases b with
    | nil => simp [lexLeb] at hab
    | cons y ys =>
      cases c with
      | nil => simp [lexLeb] at hbc
      | cons z zs =>
        by_cases hxy : x < y
        · by_cases hyz : y < z
          · simp [lexLeb, lt_trans hxy hyz]
          · by_cases hzy : z < y
            · simp [lexLeb, hyz, hzy] at hbc
            · have : y = z := le_antisymm (le_of_not_lt hzy) (le_of_not_lt hyz)
              simp [lexLeb, this ▸ hxy]
        · by_cases hyx : y < x
          · simp [lexLeb, hxy, hyx] at hab
          · have hxy' : x = y := le_antisymm (le_of_not_lt hyx) (le_of_not_lt hxy)
            subst hxy'
            by_cases hxz : x < z
            · simp [lexLeb, hxz]
            · by_cases hzx : z < x
              · simp [lexLeb, hzx, asymm hzx] at hbc
              · simp [lexLeb, hxy, hyx] at hab
                simp [lexLeb, hxz, hzx] at hbc ⊢
                exact ih hab hbc

instance : IsTotal String strLe := ⟨fun a b => lexLeb_total a.data b.data⟩

instance : IsTrans String strLe := ⟨fun _ _ _ hab hbc => lexLeb_trans hab hbc⟩

/-- Python truthiness of an `Optional[int]` value: `None` and `0` are falsy,
every other integer is truthy. -/
def pyTruthy : Option Int → Bool
  | none => false
  | some v => v ≠ 0

/-- Rendering of an `Optional[int]` inside an f-string (the `None` branch is
unreachable in `format_data_type` because truthiness is checked first). -/
def optIntStr : Option Int → String
  | none => "None"
  | some v => toString v

/-- One row of the `INFORMATION_SCHEMA.COLUMNS` result as the dictionary built
by `get_column_info` (source: `sqlserver_mapping.py`, lines 118-127). -/
structure ColumnInfo where
  column_name : String
  data_type : String
  is_nullable : String
  max_length : Option Int
  precision : Option Int
  scale : Option Int
deriving DecidableEq, Repr

/-- `format_data_type` (source: `sqlserver_mapping.py`, lines 166-185):
`if column_info[max_length] and column_info[max_length] != -1:` then
`type(length)`, `elif column_info[precision] and column_info[scale]:` then
`type(precision,scale)`, `elif column_info[precision]:` then
`type(precision)`, else the bare type.  Python truthiness is `pyTruthy`. -/
def format_data_type (c : ColumnInfo) : String :=
  if pyTruthy c.max_length = true ∧ c.max_length ≠ some (-1) then
    c.data_type ++ "(" ++ optIntStr c.max_length ++ ")"
  else if pyTruthy c.precision = true ∧ pyTruthy c.scale = true then
    c.data_type ++ "(" ++ optIntStr c.precision ++ "," ++ optIntStr c.scale ++ ")"
  else if pyTruthy c.precision = true then
    c.data_type ++ "(" ++ optIntStr c.precision ++ ")"
  else
    c.data_type

/-- A column whose max-length is present (value `0`) and distinct from the
sentinel `-1`: the claim C1 predicts the `type(length)` form for it. -/
def c1CexColumn : ColumnInfo :=
  ⟨"c", "varchar", "YES", some 0, none, none⟩

/-- Claim C1, as stated: the length form whenever max-length is present and is
not `-1`.  False: with `max_length = 0` the truthiness test
`column_info[max_length]` fails and the bare type is returned. -/
theorem format_data_type_length_cex :
    (c1CexColumn.max_length).isSome = true ∧
      c1CexColumn.max_length ≠ some (-1) ∧
      format_data_type c1CexColumn ≠ "varchar(0)" := by
  refine ⟨rfl, by decide, by decide⟩

/-- Claim C1 (amended: max-length present, nonzero, and not the sentinel
`-1`): `format_data_type` returns exactly `data_type(max_length)`, regardless
of the precision and scale fields, so the length form takes precedence. -/
theorem format_data_type_length (c : ColumnInfo) (v : Int)
    (hv : c.max_length = some v) (hnz : v ≠ 0) (hs : v ≠ -1) :
    format_data_type c = c.data_type ++ "(" ++ toString v ++ ")" := by
  have ht : pyTruthy c.max_length = true := by
    simp [pyTruthy, hv, hnz]
  have hne : c.max_length ≠ some (-1) := by
    rw [hv]; intro h; exact hs (Option.some_inj.mp h)
  unfold format_data_type
  rw [if_pos ⟨ht, hne⟩, hv]
  rfl

/-- Witness for the amended C1 at the spec example
`(data_type = varchar, max_length = 50)`. -/
theorem format_data_type_length_witness :
    format_data_type ⟨"c", "varchar", "YES", some 50, none, none⟩ = "varchar(50)" := by
  have h := format_data_type_length ⟨"c", "varchar", "YES", some 50, none, none⟩ 50
    rfl (by decide) (by decide)
  simpa using h

/-- A column with precision `10` and scale `0`, both present, and no
max-length: claim C2 predicts `decimal(10,0)` for it. -/
def c2CexColumn : ColumnInfo :=
  ⟨"c", "decimal", "YES", none, some 10, some 0⟩

/-- Claim C2, as stated: the `type(precision,scale)` form whenever precision
and scale are both present and max-length is absent, in particular when scale
is `0`.  False: with `scale = 0` the truthiness test `column_info[scale]`
fails and `decimal(10)` is returned instead of `decimal(10,0)`. -/
theorem format_data_type_prec_scale_cex :
    (c2CexColumn.precision).isSome = true ∧
      (c2CexColumn.scale).isSome = true ∧
      c2CexColumn.max_length = none ∧
      format_data_type c2CexColumn ≠ "decimal(10,0)" := by
  refine ⟨rfl, rfl, rfl, by decide⟩

/-- Claim C2 (amended: precision and scale both present and nonzero, and
max-length absent, zero, or the sentinel): `format_data_type` returns exactly
`data_type(precision,scale)`.  When scale is present with value `0`, the
`type(precision)` form is produced instead. -/
theorem format_data_type_prec_scale (c : ColumnInfo) (p s : Int)
    (hp : c.precision = some p) (hs : c.scale = some s)
    (hpnz : p ≠ 0) (hsnz : s ≠ 0)
    (hm : c.max_length = none ∨ c.max_length = some 0 ∨ c.max_length = some (-1)) :
    format_data_type c = c.data_type ++ "(" ++ toString p ++ "," ++ toString s ++ ")" := by
  have hml : ¬ (pyTruthy c.max_length = true ∧ c.max_length ≠ some (-1)) := by
    rcases hm with h | h | h <;> simp [pyTruthy, h]
  have hpt : pyTruthy c.precision = true := by simp [pyTruthy, hp, hpnz]
  have hst : pyTruthy c.scale = true := by simp [pyTruthy, hs, hsnz]
  unfold format_data_type
  rw [if_neg hml, if_pos ⟨hpt, hst⟩, hp, hs]
  rfl

/-- Witness for the amended C2 at the spec example
`(data_type = decimal, precision = 10, scale = 2)`. -/
theorem format_data_type_prec_scale_witness :
    format_data_type ⟨"c", "decimal", "YES", none, some 10, some 2⟩ = "decimal(10,2)" := by
  have h := format_data_type_prec_scale ⟨"c", "decimal", "YES", none, some 10, some 2⟩
    10 2 rfl rfl (by decide) (by decide) (Or.inl rfl)
  simpa using h

/-- Semantics of the sampling query issued by `get_sample_values`
(`SELECT DISTINCT TOP k [column] FROM [db].[dbo].[table] WHERE [column] IS
NOT NULL ORDER BY [column]`, source lines 152-157) over the stored column
cells (`none` is a SQL NULL): drop the NULLs, keep distinct values, sort
ascending, return the first `k`. -/
def sqlDistinctTopSorted (k : Nat) (colData : List (Option Int)) : List Int :=
  (((colData.filterMap id).dedup).insertionSort (· ≤ ·)).take k

/-- `get_sample_values` (source lines 135-164): run the sampling query; any
raised error is caught and `[]` is returned.  `fetch = none` models a failed
query (connection error, missing `dbo` table, unorderable column type). -/
def get_sample_values (fetch : Option (List (Option Int))) (sample_size : Nat) : List Int :=
  match fetch with
  | none => []
  | some colData => sqlDistinctTopSorted sample_size colData

/-- Claim C6: `get_sample_values` returns at most `limit` values, with no
duplicates, sorted ascending; every returned value occurs as a non-null cell
of the column; and a failed fetch yields `[]` instead of an error. -/
theorem get_sample_values_spec (fetch : Option (List (Option Int))) (limit : Nat) :
    (get_sample_values fetch limit).length ≤ limit ∧
      (get_sample_values fetch limit).Nodup ∧
      List.Sorted (· ≤ ·) (get_sample_values fetch limit) ∧
      (∀ v ∈ get_sample_values fetch limit,
        ∀ colData, fetch = some colData → some v ∈ colData) ∧
      (fetch = none → get_sample_values fetch limit = []) := by
  cases fetch with
  | none =>
      refine ⟨by simp [get_sample_values], by simp [get_sample_values],
        by simp [get_sample_values, List.Sorted], ?_, fun _ => rfl⟩
      intro v hv
      simp [get_sample_values] at hv
  | some colData =>
      have hperm := List.perm_insertionSort (α := Int) (· ≤ ·) (colData.filterMap id).dedup
      refine ⟨?_, ?_, ?_, ?_, by intro h; cases h⟩
      · exact List.length_take_le limit ((colData.filterMap id).dedup.insertionSort (· ≤ ·))
      · have hnd : ((colData.filterMap id).dedup.insertionSort (· ≤ ·)).Nodup :=
          hperm.nodup_iff.mpr (List.nodup_dedup _)
        exact hnd.sublist (List.take_sublist _ _)
      · have hsorted : List.Sorted (· ≤ ·)
            ((colData.filterMap id).dedup.insertionSort (· ≤ ·)) :=
          List.sorted_insertionSort _ _
        exact hsorted.sublist (List.take_sublist _ _)
      · intro v hv cd hcd
        cases hcd
        have h1 : v ∈ (colData.filterMap id).dedup.insertionSort (· ≤ ·) :=
          List.mem_of_mem_take hv
        have h2 : v ∈ (colData.filterMap id).dedup := hperm.mem_iff.mp h1
        have h3 : v ∈ colData.filterMap id := (List.mem_dedup).mp h2
        rcases List.mem_filterMap.mp h3 with ⟨a, ha, hav⟩
        cases hav
        exact ha

/-- Witness for C6 on the column cells `[3, NULL, 1, 3]` with limit `2`: the
sample is `[1, 3]`, duplicate-free, and `1` came from a non-null cell. -/
theorem get_sample_values_spec_witness :
    (get_sample_values (some [some 3, none, some 1, some 3]) 2).Nodup ∧
      some (1 : Int) ∈ [some 3, none, some 1, some 3] :=
  ⟨(get_sample_values_spec (some [some 3, none, some 1, some 3]) 2).2.1,
    (get_sample_values_spec (some [some 3, none, some 1, some 3]) 2).2.2.2.1
      1 (by decide) [some 3, none, some 1, some 3] rfl⟩

/-- One row of `INFORMATION_SCHEMA.TABLES` restricted to base tables: the
schema it lives in, its name, and its columns tagged with their ordinal
position.  (Views are outside the model; the walk only queries
`TABLE_TYPE = BASE TABLE`.) -/
structure SchemaTable where
  tschema : String
  tname : String
  tcols : List (Nat × ColumnInfo)

/-- The catalog state of one database, together with the failure behaviour of
the metadata queries against it: `state` is the `sys.databases` state column
(`0` is online), `tablesQueryFails` models an exception inside `get_tables`,
`colQueryFails t` an exception inside `get_column_info` for table name `t`,
and `sampleFetch t c` the outcome of the sampling query for column `c` of
table `t` (`none` models a raised error). -/
structure DbCat where
  name : String
  state : Int
  tablesQueryFails : Bool
  tabs : List SchemaTable
  colQueryFails : String → Bool
  sampleFetch : String → String → Option (List (Option Int))

/-- The deny-list in the `get_databases` query (source line 52). -/
def systemDatabases : List String := ["master", "tempdb", "model", "msdb"]

/-- Ordering of databases by name, the `ORDER BY name` of `get_databases`. -/
def dbNameLe (a b : DbCat) : Prop := strLe a.name b.name

instance : DecidableRel dbNameLe := fun a b =>
  inferInstanceAs (Decidable (strLe a.name b.name))

/-- `get_databases` (source lines 36-62): `SELECT name FROM sys.databases
WHERE state = 0 AND name NOT IN (...) ORDER BY name`; an error is caught and
`[]` returned.  The embedding keeps each name paired with its catalog entry. -/
def get_databases (dbQueryFails : Bool) (dbs : List DbCat) : List DbCat :=
  if dbQueryFails then []
  else List.insertionSort dbNameLe
    (dbs.filter (fun d => d.state == 0 && !(systemDatabases.contains d.name)))

/-- `get_tables` (source lines 64-89): `SELECT TABLE_NAME FROM
INFORMATION_SCHEMA.TABLES WHERE TABLE_TYPE = BASE TABLE ORDER BY TABLE_NAME`
— one row per (schema, table), so only the name is projected; an error is
caught and `[]` returned. -/
def get_tables (d : DbCat) : List String :=
  if d.tablesQueryFails then []
  else List.insertionSort strLe (d.tabs.map (fun st => st.tname))

/-- Ordering of column rows by ordinal position, the `ORDER BY
ORDINAL_POSITION` of the columns query. -/
def ordinalLe (a b : Nat × ColumnInfo) : Prop := a.1 ≤ b.1

instance : DecidableRel ordinalLe := fun a b =>
  inferInstanceAs (Decidable (a.1 ≤ b.1))

/-- `get_column_info` (source lines 91-133): `SELECT ... FROM
INFORMATION_SCHEMA.COLUMNS WHERE TABLE_NAME = table ORDER BY
ORDINAL_POSITION`.  The filter is on the table name only — no schema
qualification — so it matches every table of that name in any schema; an
error is caught and `[]` returned. -/
def get_column_info (d : DbCat) (table : String) : List ColumnInfo :=
  if d.colQueryFails table then []
  else
    (List.insertionSort ordinalLe
      ((d.tabs.filter (fun st => st.tname == table)).map (fun st => st.tcols)).flatten).map
      (fun p => p.2)

/-- The dictionary appended to `data_map_results` for one column
(source lines 242-249). -/
structure ReportRow where
  database : String
  table : String
  column : String
  data_type : String
  sample_values : String
  is_nullable : String
deriving DecidableEq, Repr

/-- The body of the column loop of `create_data_map` (source lines 231-249):
fetch the sample values, join them with a comma-and-space (or use the literal
marker when the list is empty, by Python truthiness of lists), format the
type, and build the row dictionary. -/
def rowOfColumn (d : DbCat) (table : String) (ci : ColumnInfo) : ReportRow :=
  let sample_values := get_sample_values (d.sampleFetch table ci.column_name) 3
  ⟨d.name, table, ci.column_name, format_data_type ci,
    if sample_values.isEmpty then "No data"
    else String.intercalate ", " (sample_values.map toString),
    ci.is_nullable⟩

/-- The rows the walk contributes for one table name of one database. -/
def tableRows (d : DbCat) (table : String) : List ReportRow :=
  (get_column_info d table).map (rowOfColumn d table)

/-- The rows the walk contributes for one database (source lines 214-249). -/
def dbRows (d : DbCat) : List ReportRow :=
  ((get_tables d).map (tableRows d)).flatten

/-- The run environment of `create_data_map`: the connection outcome, the
outcome of the databases query, the catalog, and the outcomes of
`connection.close()` and of the final `to_csv` write. -/
structure Env where
  connectOk : Bool
  dbQueryFails : Bool
  dbs : List DbCat
  closeOk : Bool
  writeOk : Bool

/-- The full `data_map_results` list assembled by the nested loops of
`create_data_map` (source lines 201-249). -/
def create_data_map_rows (env : Env) : List ReportRow :=
  ((get_databases env.dbQueryFails env.dbs).map dbRows).flatten

/-- A pandas DataFrame, reduced to what the script observes: a list of column
labels and the row data. -/
structure DataFrame where
  columns : List String
  rows : List (List String)
deriving DecidableEq, Repr

/-- `pd.DataFrame()`: no columns, no rows. -/
def DataFrame.emptyFrame : DataFrame := ⟨[], []⟩

/-- The six dictionary keys of a report row, in insertion order. -/
def reportColumns : List String :=
  ["database", "table", "column", "data_type", "sample_values", "is_nullable"]

/-- The field values of a report row, in the key order of the dictionary. -/
def rowFields (r : ReportRow) : List String :=
  [r.database, r.table, r.column, r.data_type, r.sample_values, r.is_nullable]

/-- `pd.DataFrame(data_map_results)` (source line 255): the columns are the
dictionary keys — so a frame built from the empty list has no columns at
all. -/
def pdDataFrame (rs : List ReportRow) : DataFrame :=
  match rs with
  | [] => DataFrame.emptyFrame
  | _ => ⟨reportColumns, rs.map rowFields⟩

/-- The lines `df.to_csv(output_file, index=False)` (source line 258) intends
to write: the comma-joined header, then one comma-joined line per row. -/
def toCsvLines (df : DataFrame) : List String :=
  String.intercalate "," df.columns :: df.rows.map (String.intercalate ",")

/-- The state of the output file after `to_csv`: the write opens the final
path directly (truncating any previous content) and emits the lines in
order, so a failure after `k` lines leaves the first `k` lines in place;
`failAt = none` is a completed write. -/
def fileAfterToCsv (old : Option (List String)) (df : DataFrame)
    (failAt : Option Nat) : Option (List String) :=
  match old, failAt with
  | _, none => some (toCsvLines df)
  | _, some k => some ((toCsvLines df).take k)

/-- `create_data_map` (source lines 187-271): connect, walk the catalog,
close the connection, build the frame, write it; the surrounding
`try/except` catches any exception that reaches it and returns an empty
DataFrame instead. -/
def create_data_map (env : Env) : DataFrame :=
  if env.connectOk then
    let rows := create_data_map_rows env
    if env.closeOk then
      let df := pdDataFrame rows
      if env.writeOk then df else DataFrame.emptyFrame
    else DataFrame.emptyFrame
  else DataFrame.emptyFrame

/-- Any failure that reaches the outer try/except of `create_data_map` — a
failed connection, a failed `connection.close()`, or a failed final write —
makes it return the empty DataFrame built by the handler. -/
theorem create_data_map_empty_of_flag (env : Env)
    (h : env.connectOk = false ∨ env.closeOk = false ∨ env.writeOk = false) :
    create_data_map env = DataFrame.emptyFrame := by
  by_cases hc : env.connectOk
  · by_cases hcl : env.closeOk
    · by_cases hw : env.writeOk
      · rcases h with h | h | h
        · exact absurd h (by simp [hc])
        · exact absurd h (by simp [hcl])
        · exact absurd h (by simp [hw])
      · simp [create_data_map, hc, hcl, hw]
    · simp [create_data_map, hc, hcl]
  · simp [create_data_map, hc]

/-- Claim C3: whatever failures the environment injects, the rows contributed
by any one table of any processed database form a sublist of the final
report; a failure while listing the columns of some other table only makes
that table contribute `[]` and discards nothing already collected. -/
theorem tableRows_sublist_report (env : Env) (d : DbCat) (t : String)
    (hd : d ∈ get_databases env.dbQueryFails env.dbs) (ht : t ∈ get_tables d) :
    List.Sublist (tableRows d t) (create_data_map_rows env) := by
  have h1 : List.Sublist (tableRows d t) (dbRows d) :=
    List.sublist_flatten_of_mem (List.mem_map_of_mem (tableRows d) ht)
  have h2 : List.Sublist (dbRows d) (create_data_map_rows env) :=
    List.sublist_flatten_of_mem (List.mem_map_of_mem dbRows hd)
  exact h1.trans h2

/-- A one-database catalog where listing the columns of table `A` fails while
its sibling `B` succeeds. -/
def c3Db : DbCat :=
  ⟨"db1", 0, false,
    [⟨"dbo", "A", [(1, ⟨"a1", "int", "NO", none, some 10, some 0⟩)]⟩,
     ⟨"dbo", "B", [(1, ⟨"b1", "int", "NO", none, some 10, some 0⟩)]⟩],
    (fun t => t == "A"),
    (fun _ _ => none)⟩

def c3Env : Env := ⟨true, false, [c3Db], true, true⟩

/-- Witness for C3: with the column query for `A` failing, the row of the
sibling table `B` still appears in the assembled report. -/
theorem tableRows_sublist_report_witness :
    List.Sublist (tableRows c3Db "B") (create_data_map_rows c3Env) :=
  tableRows_sublist_report c3Env c3Db "B"
    (by
      rw [show get_databases c3Env.dbQueryFails c3Env.dbs = [c3Db] from rfl]
      exact List.mem_singleton.mpr rfl)
    (by decide)

/-- Claim C8: every failure of connection establishment, of closing the
session, or of the final file write is caught by `create_data_map`, which
returns the empty DataFrame instead of propagating an exception.  (Totality
at the public interface is by construction: every failure point of the
source is inside its try/except.) -/
theorem create_data_map_total_on_failure (env : Env)
    (h : env.connectOk = false ∨ env.closeOk = false ∨ env.writeOk = false) :
    create_data_map env = DataFrame.emptyFrame :=
  create_data_map_empty_of_flag env h

def c8Env : Env := ⟨true, false, [], true, false⟩

/-- Witness for C8 at a run whose final write fails. -/
theorem create_data_map_total_on_failure_witness :
    create_data_map c8Env = DataFrame.emptyFrame :=
  create_data_map_total_on_failure c8Env (Or.inr (Or.inr rfl))

/-- The number of columns enumerated across all processed tables, as counted
by the `total_columns` accumulator of `create_data_map` (source line 228). -/
def totalColumns (env : Env) : Nat :=
  ((get_databases env.dbQueryFails env.dbs).map (fun d =>
    ((get_tables d).map (fun t => (get_column_info d t).length)).sum)).sum

/-- Claim C9: every enumerated column contributes exactly one report row, so
the report length equals the `total_columns` count; and a column whose sample
list is empty is emitted with the literal marker rather than skipped. -/
theorem report_row_count (env : Env) :
    (create_data_map_rows env).length = totalColumns env ∧
      ∀ (d : DbCat) (t : String) (ci : ColumnInfo),
        get_sample_values (d.sampleFetch t ci.column_name) 3 = [] →
        (rowOfColumn d t ci).sample_values = "No data" := by
  constructor
  · have hlen : ∀ d, (dbRows d).length =
        ((get_tables d).map (fun t => (get_column_info d t).length)).sum := by
      intro d
      simp [dbRows, tableRows, List.length_flatten, List.map_map, Function.comp_def]
    simp [create_data_map_rows, totalColumns, List.length_flatten, List.map_map,
      Function.comp_def, hlen]
  · intro d t ci h
    simp [rowOfColumn, h]

/-- A one-table, one-column catalog whose only column has no data. -/
def c9Db : DbCat :=
  ⟨"db9", 0, false, [⟨"dbo", "T", [(1, ⟨"c", "bit", "YES", none, some 1, none⟩)]⟩],
    (fun _ => false), (fun _ _ => some [])⟩

def c9Env : Env := ⟨true, false, [c9Db], true, true⟩

/-- Witness for C9: the report of the one-column catalog has exactly one row,
and a sampleless column is rendered as the literal marker. -/
theorem report_row_count_witness :
    (create_data_map_rows c9Env).length = totalColumns c9Env ∧
      (rowOfColumn c9Db "T" ⟨"c", "bit", "YES", none, some 1, none⟩).sample_values =
        "No data" :=
  ⟨(report_row_count c9Env).1,
    (report_row_count c9Env).2 c9Db "T" ⟨"c", "bit", "YES", none, some 1, none⟩ rfl⟩

/-- An online database filtered out by state (`state = 1` is not online). -/
def c5OfflineDb : DbCat := ⟨"db5", 1, false, [], (fun _ => false), (fun _ _ => none)⟩

def c5Env : Env := ⟨true, false, [c5OfflineDb], true, true⟩

/-- Claim C5, as stated: with zero databases passing the filter, the written
file should contain exactly the header row with the six field names.  False:
`pd.DataFrame([])` has no columns, so the written file consists of a single
empty line without any field name. -/
theorem empty_filter_header_cex :
    get_databases c5Env.dbQueryFails c5Env.dbs = [] ∧
      toCsvLines (pdDataFrame (create_data_map_rows c5Env)) = [""] ∧
      ([""] : List String) ≠ [String.intercalate "," reportColumns] := by
  refine ⟨rfl, rfl, by decide⟩

/-- Claim C5 (amended): with zero databases passing the online/non-system
filter, the assembled report is the empty sequence and the write produces a
file holding one empty line — no header fields — because the DataFrame built
from an empty list has no columns. -/
theorem empty_filter_report (env : Env)
    (h : get_databases env.dbQueryFails env.dbs = []) :
    create_data_map_rows env = [] ∧
      toCsvLines (pdDataFrame (create_data_map_rows env)) = [""] := by
  have h1 : create_data_map_rows env = [] := by
    simp [create_data_map_rows, h]
  refine ⟨h1, ?_⟩
  rw [h1]
  rfl

def c5WitnessEnv : Env := ⟨true, false, [], true, true⟩

/-- Witness for the amended C5 on an instance with no databases at all. -/
theorem empty_filter_report_witness :
    create_data_map_rows c5WitnessEnv = [] ∧
      toCsvLines (pdDataFrame (create_data_map_rows c5WitnessEnv)) = [""] :=
  empty_filter_report c5WitnessEnv rfl

def c4Frame : DataFrame := pdDataFrame
  [⟨"db1", "t1", "c1", "int", "No data", "NO"⟩,
   ⟨"db1", "t1", "c2", "int", "No data", "YES"⟩]

def c4OldContent : List String := ["old header", "old row"]

/-- Claim C4, as stated: after a failed write the output file is absent,
unchanged, or fully valid.  False: `to_csv` writes straight to the output
path, so a write that dies after two of three lines leaves a file that is
present, differs from the previous content, and is not the full report. -/
theorem to_csv_partial_cex :
    fileAfterToCsv (some c4OldContent) c4Frame (some 2) ≠ none ∧
      fileAfterToCsv (some c4OldContent) c4Frame (some 2) ≠ some c4OldContent ∧
      fileAfterToCsv (some c4OldContent) c4Frame (some 2) ≠
        some (toCsvLines c4Frame) := by
  refine ⟨by decide, by decide, by decide⟩

/-- Claim C4 (amended): a failing final write is caught — `create_data_map`
returns the empty DataFrame instead of raising — but since the write goes
directly to the output path, the file may be left holding a partial result; 
what remains is always some leading part (a sublist) of the intended CSV
lines, never content from a different report. -/
theorem to_csv_failure_behavior (env : Env) (old : Option (List String))
    (df : DataFrame) (k : Nat) (hw : env.writeOk = false) :
    create_data_map env = DataFrame.emptyFrame ∧
      ∃ content, fileAfterToCsv old df (some k) = some content ∧
        List.Sublist content (toCsvLines df) := by
  refine ⟨create_data_map_empty_of_flag env (Or.inr (Or.inr hw)), ?_⟩
  exact ⟨(toCsvLines df).take k, rfl, List.take_sublist _ _⟩

def c4WitnessEnv : Env := ⟨true, false, [], true, false⟩

/-- Witness for the amended C4 at a concrete failed write. -/
theorem to_csv_failure_behavior_witness :
    create_data_map c4WitnessEnv = DataFrame.emptyFrame ∧
      ∃ content, fileAfterToCsv (some c4OldContent) c4Frame (some 2) = some content ∧
        List.Sublist content (toCsvLines c4Frame) :=
  to_csv_failure_behavior c4WitnessEnv (some c4OldContent) c4Frame 2 rfl

/-- The (database, table, column) triple of a report row. -/
def rowTriple (r : ReportRow) : String × String × String :=
  (r.database, r.table, r.column)

/-- Every row produced for table name `t` of database `d` carries `d.name`
and `t` in its database and table fields. -/
theorem tableRows_fields {d : DbCat} {t : String} {r : ReportRow}
    (h : r ∈ tableRows d t) : r.database = d.name ∧ r.table = t := by
  rcases List.mem_map.mp h with ⟨ci, _, rfl⟩
  exact ⟨rfl, rfl⟩

/-- Every row produced for database `d` carries `d.name` in its database
field. -/
theorem dbRows_database {d : DbCat} {r : ReportRow} (h : r ∈ dbRows d) :
    r.database = d.name := by
  rcases List.mem_flatten.mp h with ⟨l, hl, hr⟩
  rcases List.mem_map.mp hl with ⟨t, _, rfl⟩
  exact (tableRows_fields hr).1

/-- When the table names of a catalog are distinct, the name filter of the
columns query matches no entry or exactly one. -/
theorem filter_tname_cases {l : List SchemaTable}
    (h : (l.map (fun st => st.tname)).Nodup) (t : String) :
    l.filter (fun st => st.tname == t) = [] ∨
      ∃ st ∈ l, l.filter (fun st => st.tname == t) = [st] := by
  induction l with
  | nil => left; rfl
  | cons x xs ih =>
    simp only [List.map_cons, List.nodup_cons] at h
    obtain ⟨hx, hxs⟩ := h
    by_cases hxt : x.tname == t
    · right
      refine ⟨x, List.mem_cons_self x xs, ?_⟩
      have hnone : xs.filter (fun st => st.tname == t) = [] := by
        rw [List.filter_eq_nil_iff]
        intro st hst hstt
        apply hx
        have h1 : st.tname = t := by simpa using hstt
        have h2 : x.tname = t := by simpa using hxt
        rw [List.mem_map]
        exact ⟨st, hst, by rw [h1, h2]⟩
      simp [List.filter_cons, hxt, hnone]
    · rcases ih hxs with hcase | ⟨st, hst, hcase⟩
      · left; simp [List.filter_cons, hxt, hcase]
      · right
        exact ⟨st, List.mem_cons_of_mem x hst, by simp [List.filter_cons, hxt, hcase]⟩

/-- Under per-database uniqueness of table names and per-table uniqueness of
column names, the column names returned by `get_column_info` are distinct. -/
theorem get_column_info_names_nodup {d : DbCat}
    (htab : (d.tabs.map (fun st => st.tname)).Nodup)
    (hcol : ∀ st ∈ d.tabs, (st.tcols.map (fun p => p.2.column_name)).Nodup)
    (t : String) :
    ((get_column_info d t).map (fun ci => ci.column_name)).Nodup := by
  unfold get_column_info
  by_cases hf : d.colQueryFails t
  · simp [hf]
  · rw [if_neg hf]
    rcases filter_tname_cases htab t with hc | ⟨st, hst, hc⟩
    · rw [hc]; simp
    · rw [hc]
      have hfl : ([st].map (fun st => st.tcols)).flatten = st.tcols := by simp
      rw [hfl]
      have h1 : ((List.insertionSort ordinalLe st.tcols).map (fun p => p.2)).map
          (fun ci => ci.column_name) =
          (List.insertionSort ordinalLe st.tcols).map (fun p => p.2.column_name) := by
        rw [List.map_map]; rfl
      rw [h1]
      have hperm : ((List.insertionSort ordinalLe st.tcols).map
          (fun p => p.2.column_name)).Perm (st.tcols.map (fun p => p.2.column_name)) :=
        (List.perm_insertionSort ordinalLe st.tcols).map _
      exact hperm.nodup_iff.mpr (hcol st hst)

/-- Under the same uniqueness hypotheses, the triples of one table's rows are
distinct (same database and table, distinct column names). -/
theorem tableRows_triples_nodup {d : DbCat}
    (htab : (d.tabs.map (fun st => st.tname)).Nodup)
    (hcol : ∀ st ∈ d.tabs, (st.tcols.map (fun p => p.2.column_name)).Nodup)
    (t : String) :
    ((tableRows d t).map rowTriple).Nodup := by
  unfold tableRows
  rw [List.map_map]
  have h1 : (rowTriple ∘ rowOfColumn d t) = fun ci => (d.name, t, ci.column_name) := rfl
  rw [h1]
  have h2 : (get_column_info d t).map (fun ci => (d.name, t, ci.column_name)) =
      ((get_column_info d t).map (fun ci => ci.column_name)).map
        (fun n => (d.name, t, n)) := by
    rw [List.map_map]; rfl
  rw [h2]
  refine (get_column_info_names_nodup htab hcol t).map ?_
  intro a b hab
  simpa using congrArg (fun x => x.2.2) hab

/-- The table names the walk iterates over for one database are distinct when
the catalog's table names are. -/
theorem get_tables_nodup {d : DbCat}
    (htab : (d.tabs.map (fun st => st.tname)).Nodup) : (get_tables d).Nodup := by
  unfold get_tables
  by_cases hf : d.tablesQueryFails
  · simp [hf]
  · rw [if_neg hf]
    exact (List.perm_insertionSort strLe _).nodup_iff.mpr htab

/-- Under the uniqueness hypotheses, the triples of one database's rows are
distinct. -/
theorem dbRows_triples_nodup {d : DbCat}
    (htab : (d.tabs.map (fun st => st.tname)).Nodup)
    (hcol : ∀ st ∈ d.tabs, (st.tcols.map (fun p => p.2.column_name)).Nodup) :
    ((dbRows d).map rowTriple).Nodup := by
  unfold dbRows
  rw [List.map_flatten, List.map_map]
  apply List.nodup_flatten.mpr
  constructor
  · intro l hl
    rcases List.mem_map.mp hl with ⟨t, _, rfl⟩
    exact tableRows_triples_nodup htab hcol t
  · rw [List.pairwise_map]
    refine (get_tables_nodup htab).imp ?_
    intro a b hab x hx1 hx2
    apply hab
    rcases List.mem_map.mp hx1 with ⟨r1, hr1, rfl⟩
    rcases List.mem_map.mp hx2 with ⟨r2, hr2, heq⟩
    have e1 : r1.table = a := (tableRows_fields hr1).2
    have e2 : r2.table = b := (tableRows_fields hr2).2
    have : r1.table = r2.table := congrArg (fun x => x.2.1) heq.symm
    rw [e1, e2] at this
    exact this

/-- Databases returned by `get_databases` come from the catalog list. -/
theorem get_databases_subset {dbQueryFails : Bool} {dbs : List DbCat} {d : DbCat}
    (hd : d ∈ get_databases dbQueryFails dbs) : d ∈ dbs := by
  unfold get_databases at hd
  by_cases hq : dbQueryFails
  · simp [hq] at hd
  · rw [if_neg hq] at hd
    have h1 := (List.perm_insertionSort dbNameLe _).mem_iff.mp hd
    exact List.mem_of_mem_filter h1

/-- The names of the databases returned by `get_databases` are distinct when
the catalog names are. -/
theorem get_databases_names_nodup {dbQueryFails : Bool} {dbs : List DbCat}
    (hdb : (dbs.map (fun d => d.name)).Nodup) :
    ((get_databases dbQueryFails dbs).map (fun d => d.name)).Nodup := by
  unfold get_databases
  by_cases hq : dbQueryFails
  · simp [hq]
  · rw [if_neg hq]
    have hperm := (List.perm_insertionSort dbNameLe
      (dbs.filter (fun d => d.state == 0 && !(systemDatabases.contains d.name)))).map
      (fun d => d.name)
    refine hperm.nodup_iff.mpr ?_
    exact hdb.sublist ((List.filter_sublist dbs).map (fun d => d.name))

/-- Claim C7 (amended): the (database, table, column) triples of the report
are pairwise distinct for every catalog in which database names are distinct,
each table name occurs in at most one schema of its database, and column
names are distinct within each table.  (The unqualified `TABLE_NAME` filter
of the columns query makes the restriction on schemas necessary.) -/
theorem report_triples_nodup (env : Env)
    (hdb : (env.dbs.map (fun d => d.name)).Nodup)
    (htab : ∀ d ∈ env.dbs, (d.tabs.map (fun st => st.tname)).Nodup)
    (hcol : ∀ d ∈ env.dbs, ∀ st ∈ d.tabs,
      (st.tcols.map (fun p => p.2.column_name)).Nodup) :
    ((create_data_map_rows env).map rowTriple).Nodup := by
  unfold create_data_map_rows
  rw [List.map_flatten, List.map_map]
  apply List.nodup_flatten.mpr
  constructor
  · intro l hl
    rcases List.mem_map.mp hl with ⟨d, hd, rfl⟩
    have hmem := get_databases_subset hd
    exact dbRows_triples_nodup (htab d hmem) (hcol d hmem)
  · rw [List.pairwise_map]
    have hnames := @get_databases_names_nodup env.dbQueryFails env.dbs hdb
    have hpw : (get_databases env.dbQueryFails env.dbs).Pairwise
        (fun a b => a.name ≠ b.name) := by
      rw [List.Nodup, List.pairwise_map] at hnames
      exact hnames
    refine hpw.imp ?_
    intro a b hab x hx1 hx2
    apply hab
    rcases List.mem_map.mp hx1 with ⟨r1, hr1, rfl⟩
    rcases List.mem_map.mp hx2 with ⟨r2, hr2, heq⟩
    have e1 : r1.database = a.name := dbRows_database hr1
    have e2 : r2.database = b.name := dbRows_database hr2
    have : r1.database = r2.database := congrArg (fun x => x.1) heq.symm
    rw [e1, e2] at this
    exact this

/-- A database holding a table named `Orders` in two schemas, each with one
column `Id` at ordinal 1. -/
def c7Db : DbCat :=
  ⟨"db7", 0, false,
    [⟨"dbo", "Orders", [(1, ⟨"Id", "int", "NO", none, some 10, some 0⟩)]⟩,
     ⟨"sales", "Orders", [(1, ⟨"Id", "int", "NO", none, some 10, some 0⟩)]⟩],
    (fun _ => false), (fun _ _ => none)⟩

def c7Env : Env := ⟨true, false, [c7Db], true, true⟩

/-- Claim C7, as stated for all catalogs: false when the same table name
lives in two schemas.  `get_tables` lists the name once per schema and the
columns query matches both tables by name, so the triple
`(db7, Orders, Id)` appears four times in the report. -/
theorem report_triple_unique_cex :
    ¬ ((create_data_map_rows c7Env).map rowTriple).Nodup := by decide

/-- A single-schema catalog with distinct table names and distinct column
names per table. -/
def c7WitnessDb : DbCat :=
  ⟨"db7w", 0, false,
    [⟨"dbo", "Orders", [(1, ⟨"Id", "int", "NO", none, some 10, some 0⟩),
                        (2, ⟨"Amount", "decimal", "YES", none, some 10, some 2⟩)]⟩,
     ⟨"dbo", "Customers", [(1, ⟨"Id", "int", "NO", none, some 10, some 0⟩)]⟩],
    (fun _ => false), (fun _ _ => none)⟩

def c7WitnessEnv : Env := ⟨true, false, [c7WitnessDb], true, true⟩

/-- Witness for the amended C7 on a concrete single-schema catalog. -/
theorem report_triples_nodup_witness :
    ((create_data_map_rows c7WitnessEnv).map rowTriple).Nodup :=
  report_triples_nodup c7WitnessEnv (by decide) (by decide) (by decide)

/-- A node of the scanned directory tree: a regular file, or a subdirectory
with its children.  (Other node kinds never enter the result: `os.walk`
reports them outside `files` only when they are directories, and
`os.scandir` entries are kept only when `entry.is_file()`.) -/
inductive FsEntry where
  | file (name : String)
  | dir (name : String) (children : List FsEntry)

/-- The paths `os.walk` accumulates below one entry, each built with
`os.path.join(root, filename)`: a file contributes its joined path, a
directory relays the walk with the extended root. -/
def entryFilePaths (root : String) : FsEntry → List String
  | .file n => [root ++ "/" ++ n]
  | .dir n children =>
      (children.attach.map (fun c => entryFilePaths (root ++ "/" ++ n) c.1)).flatten
termination_by e => sizeOf e
decreasing_by
  have h := List.sizeOf_lt_of_mem c.2
  simp only [FsEntry.dir.sizeOf_spec]
  omega

theorem entryFilePaths_dir (root n : String) (children : List FsEntry) :
    entryFilePaths root (.dir n children) =
      (children.map (fun c => entryFilePaths (root ++ "/" ++ n) c)).flatten := by
  rw [entryFilePaths]
  congr 1
  exact List.attach_map_coe _ _

/-- The paths of all regular-file nodes below the scanned directory. -/
def allFilePaths (directory : String) (children : List FsEntry) : List String :=
  (children.map (fun c => entryFilePaths directory c)).flatten

/-- `gather_file_paths` (source: `file_paths.py`, lines 7-28): with
`recursive` walk the whole tree with `os.walk`, otherwise keep the top-level
`os.scandir` entries satisfying `entry.is_file()`; return the collected
paths sorted. -/
def gather_file_paths (directory : String) (children : List FsEntry)
    (recursive : Bool) : List String :=
  List.insertionSort strLe
    (if recursive then allFilePaths directory children
     else children.filterMap (fun e =>
       match e with
       | .file n => some (directory ++ "/" ++ n)
       | .dir _ _ => none))

/-- Claim C10: in both modes, `gather_file_paths` returns a list sorted in
ascending lexicographic order, and every returned path is the path of a
regular-file node of the tree — never of a directory. -/
theorem gather_file_paths_spec (directory : String) (children : List FsEntry)
    (recursive : Bool) :
    List.Sorted strLe (gather_file_paths directory children recursive) ∧
      ∀ p ∈ gather_file_paths directory children recursive,
        p ∈ allFilePaths directory children := by
  constructor
  · exact List.sorted_insertionSort strLe _
  · intro p hp
    unfold gather_file_paths at hp
    have hp2 := (List.perm_insertionSort strLe _).mem_iff.mp hp
    cases recursive with
    | true => rwa [if_pos rfl] at hp2
    | false =>
        rw [if_neg (by simp)] at hp2
        rcases List.mem_filterMap.mp hp2 with ⟨e, he, hee⟩
        cases e with
        | file n =>
            have hpn : p = directory ++ "/" ++ n := by
              simpa using hee.symm
            refine List.mem_flatten.mpr
              ⟨entryFilePaths directory (.file n),
                List.mem_map.mpr ⟨FsEntry.file n, he, rfl⟩, ?_⟩
            simp [entryFilePaths, hpn]
        | dir m cs => simp at hee

def c10Children : List FsEntry := [.dir "sub" [.file "b"], .file "a"]

/-- Witness for C10 on a two-level tree: the gathered list is sorted, and the
top-level file path is among the file-node paths. -/
theorem gather_file_paths_spec_witness :
    List.Sorted strLe (gather_file_paths "/r" c10Children true) ∧
      "/r/a" ∈ allFilePaths "/r" c10Children :=
  ⟨(gather_file_paths_spec "/r" c10Children true).1,
    (gather_file_paths_spec "/r" c10Children true).2 "/r/a" (by
      unfold gather_file_paths
      rw [if_pos rfl]
      refine (List.perm_insertionSort strLe _).mem_iff.mpr ?_
      simp [allFilePaths, c10Children, entryFilePaths_dir, entryFilePaths])⟩
